import Mathlib

/-!
Verification of the nym network-monitor / validator health-check core.

The definitions below are a shallow embedding of the Rust sources:
  * `validator/src/validator/health_check/path_check.rs` (`PathChecker`),
  * `network-monitor/src/network/mixnet_listener.rs` (`MixnetListener`),
  * `network-monitor/src/network/mod.rs` (`Monitor`).

Bytes are modelled as `Nat`, byte strings as `List Nat`, hash maps as
association lists, and panics (`unwrap` / `expect` / `assert` / `panic!`)
as `none` or dedicated outcome constructors.  Network effects (provider
registration, packet sends) are supplied as oracle arguments.
-/

/-- Association-list lookup, modelling `HashMap::get`. -/
def alookup {α β : Type} [DecidableEq α] : List (α × β) → α → Option β
  | [], _ => none
  | (k, v) :: rest, key => if k = key then some v else alookup rest key

/-- Association-list insert, modelling `HashMap::insert` (replaces an
existing binding for the key, otherwise appends a fresh one). -/
def ainsert {α β : Type} [DecidableEq α] : List (α × β) → α → β → List (α × β)
  | [], key, v => [(key, v)]
  | (k, w) :: rest, key, v =>
    if k = key then (key, v) :: rest else (k, w) :: ainsert rest key v

/-- Association-list removal, modelling `HashMap::remove`. -/
def aremove {α β : Type} [DecidableEq α] : List (α × β) → α → List (α × β)
  | [], _ => []
  | (k, v) :: rest, key =>
    if k = key then aremove rest key else (k, v) :: aremove rest key

/-- A sphinx route node as used by the path checker: the 32 serialized
bytes of its public key (`node.pub_key.to_bytes()`) and its address
bytes. -/
structure SphinxNode where
  pub_key : List Nat
  address : List Nat
deriving DecidableEq

/-- Path health status (`PathStatus` in `path_check.rs`). -/
inductive PathStatus where
  | Healthy
  | Unhealthy
  | Pending
deriving DecidableEq

/-- The `PathChecker` state: provider cache, first-hop (layer-one) cache,
path-status table and our own destination address.  A cache value `true`
models `Some(client)` (connected), `false` models `None` (unreachable);
an absent key models a node never seen. -/
structure PathChecker where
  provider_clients : List (List Nat × Bool)
  layer_one_clients : List (List Nat × Bool)
  paths_status : List (List Nat × PathStatus)
  our_destination : List Nat
deriving DecidableEq

/-- `PathChecker::unique_path_key`: the iteration byte followed by the
concatenation of the serialized public keys of the path's nodes, in path
order. -/
def unique_path_key (path : List SphinxNode) (iteration : Nat) : List Nat :=
  iteration :: (path.map (fun node => node.pub_key)).flatten

/-- Chunking worker, structurally recursive on a fuel bound that is at
least the list's length (so the fuel-exhaustion case is unreachable). -/
def chunks32_fuel : Nat → List Nat → List (List Nat)
  | _, [] => []
  | 0, _ :: _ => []
  | fuel + 1, x :: xs => ((x :: xs).take 32) :: chunks32_fuel fuel ((x :: xs).drop 32)

/-- Chunks of 32 bytes, as produced by itertools `.chunks(32)` in
`path_key_to_node_keys` (the last chunk may be shorter). -/
def chunks32 (l : List Nat) : List (List Nat) := chunks32_fuel l.length l

/-- `key.copy_from_slice(&chunk)` into `[0u8; 32]`: succeeds exactly when
the chunk holds 32 bytes; a length mismatch is a panic (`none`). -/
def copy_to_key32 (chunk : List Nat) : Option (List Nat) :=
  if chunk.length = 32 then some chunk else none

/-- `PathChecker::path_key_to_node_keys`: asserts `len % 32 == 1`, drops
the iteration byte, and splits the rest into 32-byte keys.  `none` models
a panic of the `assert_eq!` or of `copy_from_slice`. -/
def path_key_to_node_keys (path_key : List Nat) : Option (List (List Nat)) :=
  if path_key.length % 32 = 1 then
    (chunks32 (path_key.drop 1)).mapM copy_to_key32
  else
    none

/-- Observable outcome of one `check_path` call: the returned boolean, the
updated checker state, and how many packets were built, sends attempted
and send-failure warnings logged. -/
structure CheckOutcome where
  result : Bool
  checker : PathChecker
  packets_built : Nat
  send_attempts : Nat
  send_warnings : Nat
deriving DecidableEq

/-- `PathChecker::check_path`.  `none` models a panic (`path.last()` /
`path.first()` on an empty path, or the `unwrap` of the provider-cache
lookup when the terminal provider was never registered).  `send_ok` is
the oracle outcome of the network send to the first hop.  Packet
construction (`SphinxPacket::new(...).unwrap()`) is modelled as
succeeding: at that point the path is non-empty and exactly one delay
per hop has been supplied. -/
def check_path (st : PathChecker) (path : List SphinxNode) (send_ok : Bool) :
    Option CheckOutcome :=
  match path.getLast? with
  | none => none
  | some lastNode =>
    match alookup st.provider_clients lastNode.pub_key with
    | none => none
    | some providerLive =>
      if providerLive = false then
        some ⟨false, st, 0, 0, 0⟩
      else
        match path.head? with
        | none => none
        | some firstNode =>
          let cached := alookup st.layer_one_clients firstNode.pub_key
          let entryVal := cached.getD true
          let st' :=
            match cached with
            | some _ => st
            | none =>
              { st with
                layer_one_clients :=
                  ainsert st.layer_one_clients firstNode.pub_key true }
          if entryVal = false then
            some ⟨false, st', 0, 0, 0⟩
          else if send_ok then
            some ⟨true, st', 1, 1, 0⟩
          else
            some ⟨false, st', 1, 1, 1⟩

/-- Observable outcome of provider registration (`PathChecker::new`): the
provider cache, the number of registration-failure warnings logged, and
the number of "provider already existed!" errors reported. -/
structure RegOutcome where
  provider_clients : List (List Nat × Bool)
  warnings : Nat
  dup_errors : Nat
deriving DecidableEq

/-- The registration loop of `PathChecker::new`.  Each provider is given
as its public-key bytes together with the oracle outcome of
`provider_client.register()`; success inserts `Some(client)` (`true`),
failure logs a warning and inserts `None` (`false`); a non-`None`
`insert` result is reported as an error. -/
def register_providers : List (List Nat × Bool) → RegOutcome → RegOutcome
  | [], st => st
  | (key, reg_ok) :: rest, st =>
    let old := alookup st.provider_clients key
    register_providers rest
      ⟨ainsert st.provider_clients key reg_ok,
       st.warnings + (if reg_ok then 0 else 1),
       st.dup_errors + (if old.isSome then 1 else 0)⟩

/-- `PathChecker::new` restricted to its observable registration effect. -/
def pathChecker_new (providers : List (List Nat × Bool)) : RegOutcome :=
  register_providers providers ⟨[], 0, 0⟩

/-- A message fragment: fragment-set identifier, index within the set,
total number of fragments of the set, and payload bytes. -/
structure Fragment where
  set_id : Nat
  index : Nat
  total : Nat
  payload : List Nat
deriving DecidableEq

/-- Reassembly state: per-message-set mapping from fragment index to
fragment bytes, keyed by the fragment-set identifier. -/
abbrev ReassemblyState : Type := List (Nat × List (Nat × List Nat))

/-- Modelled from the spec: completion check of one fragment set — all
fragment indices `0 .. total-1` are present (the reassembly layer of
`nymsphinx::receiver::MessageReceiver` is not under `src/`). -/
def set_complete (frags : List (Nat × List Nat)) : Nat → Bool
  | 0 => true
  | i + 1 => (alookup frags i).isSome && set_complete frags i

/-- Modelled from the spec: reconstruction of a completed message — the
fragments' bytes concatenated in index order. -/
def payloads_upto (frags : List (Nat × List Nat)) : Nat → List Nat
  | 0 => []
  | i + 1 => payloads_upto frags i ++ (alookup frags i).getD []

/-- The fragment's set entry with the fragment stored under its index. -/
def updated_set (st : ReassemblyState) (f : Fragment) :
    List (Nat × List Nat) :=
  ainsert ((alookup st f.set_id).getD []) f.index f.payload

/-- Modelled from the spec: `MessageReceiver::insert_new_fragment` (not
under `src/`): store the fragment under its set's entry; when all
`total` expected fragments are present the set's state is removed and
the reconstructed message returned, otherwise no output is produced. -/
def insert_new_fragment (st : ReassemblyState) (f : Fragment) :
    ReassemblyState × Option (List Nat) :=
  if set_complete (updated_set st f) f.total then
    (aremove st f.set_id, some (payloads_upto (updated_set st f) f.total))
  else
    (ainsert st f.set_id (updated_set st f), none)

/-- Feed a list of fragments through `insert_new_fragment`, collecting
every completed message in completion order. -/
def feed_fragments (st : ReassemblyState) :
    List Fragment → ReassemblyState × List (List Nat)
  | [] => (st, [])
  | f :: rest =>
    ((feed_fragments (insert_new_fragment st f).1 rest).1,
     (insert_new_fragment st f).2.toList ++
       (feed_fragments (insert_new_fragment st f).1 rest).2)

/-- Interleaving worker, structurally recursive on a fuel bound that is
at least the two lists' combined length. -/
def interleavings_fuel {α : Type} : Nat → List α → List α → List (List α)
  | _, [], ys => [ys]
  | _, x :: xs, [] => [x :: xs]
  | 0, _ :: _, _ :: _ => []
  | fuel + 1, x :: xs, y :: ys =>
    (interleavings_fuel fuel xs (y :: ys)).map (fun l => x :: l) ++
      (interleavings_fuel fuel (x :: xs) ys).map (fun l => y :: l)

/-- All order-preserving interleavings of two lists. -/
def interleavings {α : Type} (a b : List α) : List (List α) :=
  interleavings_fuel (a.length + b.length) a b

/-- `MixnetListener::on_message`.  The three fallible stages are oracles:
`decrypt` (`recover_plaintext`), `recover_frag` (`recover_fragment`) and
`insert_frag` (`insert_new_fragment`, whose outer `Option` models its
`Result` and whose inner `Option` is "completed message or not yet").
`none` models a panic of one of the four `expect`s; in particular an
insertion that completes no message panics
(`expect("no reconstructed message received from test packet")`). -/
def on_message (decrypt : List Nat → Option (List Nat))
    (recover_frag : List Nat → Option Fragment)
    (insert_frag : ReassemblyState → Fragment →
      Option (ReassemblyState × Option (List Nat)))
    (st : ReassemblyState) (message : List Nat) :
    Option (ReassemblyState × List Nat) :=
  match decrypt message with
  | none => none
  | some encrypted_bytes =>
    match recover_frag encrypted_bytes with
    | none => none
    | some fragment =>
      match insert_frag st fragment with
      | none => none
      | some (_, none) => none
      | some (st', some recovered) => some (st', recovered)

/-- How the listener task ends (it never returns normally). -/
inductive ListenerEnd where
  | message_panic
  | channel_panic
deriving DecidableEq

/-- The message loop of `MixnetListener::run`: process messages in
arrival order; the first failing message aborts the loop.  Returns the
final state (`none` if a message panicked) and the number of messages
fully processed. -/
def run_messages (decrypt : List Nat → Option (List Nat))
    (recover_frag : List Nat → Option Fragment)
    (insert_frag : ReassemblyState → Fragment →
      Option (ReassemblyState × Option (List Nat)))
    (st : ReassemblyState) :
    List (List Nat) → Option ReassemblyState × Nat
  | [] => (some st, 0)
  | m :: ms =>
    match on_message decrypt recover_frag insert_frag st m with
    | none => (none, 0)
    | some (st', _) =>
      let next := run_messages decrypt recover_frag insert_frag st' ms
      (next.1, next.2 + 1)

/-- `MixnetListener::run` over a finite inbound stream of batches: drain
every batch in order; a failing message panics the listener task, and
exhaustion of the channel (closure) hits the final `panic!`. -/
def run_listener (decrypt : List Nat → Option (List Nat))
    (recover_frag : List Nat → Option Fragment)
    (insert_frag : ReassemblyState → Fragment →
      Option (ReassemblyState × Option (List Nat)))
    (st : ReassemblyState) (batches : List (List (List Nat))) :
    ListenerEnd × Nat :=
  match run_messages decrypt recover_frag insert_frag st batches.flatten with
  | (none, n) => (ListenerEnd.message_panic, n)
  | (some _, n) => (ListenerEnd.channel_panic, n)

/-- How a `Monitor::run` invocation ends. -/
inductive MonitorEnd where
  | auth_panic
  | sanity_send_panic
  | fetch_panic
  | empty_nodes_panic
  | sweep_send_panic
  | completed
deriving DecidableEq

/-- Observable trace of `Monitor::run`: how it ended, how many gateway
batch sends the sanity check issued, and how many the sweep issued. -/
structure MonitorTrace where
  outcome : MonitorEnd
  sanity_sends : Nat
  sweep_sends : Nat
deriving DecidableEq

/-- The per-node sweep of `Monitor::test_all_nodes`: one gateway batch
send per node, each unwrapped (the first failing send panics).  Returns
whether the sweep completed and the number of sends attempted. -/
def sweep : List Bool → Bool × Nat
  | [] => (true, 0)
  | ok :: rest =>
    if ok then
      let next := sweep rest
      (next.1, next.2 + 1)
    else
      (false, 1)

/-- `Monitor::run` control flow: authenticate (expect), spawn the
listener, run the sanity check (one self-probe batch send, unwrapped),
then `test_all_nodes`: fetch the topology (expect), take the last
mixnode (expect, panics on an empty list), and sweep every node.
`mix_node_sends` gives the oracle outcome of each sweep send, one per
node of `mix_nodes`. -/
def monitor_run (auth_ok sanity_send_ok fetch_ok : Bool)
    (mix_nodes : List (List Nat)) (mix_node_sends : List Bool) :
    MonitorTrace :=
  if auth_ok = false then
    ⟨MonitorEnd.auth_panic, 0, 0⟩
  else if sanity_send_ok = false then
    ⟨MonitorEnd.sanity_send_panic, 1, 0⟩
  else if fetch_ok = false then
    ⟨MonitorEnd.fetch_panic, 1, 0⟩
  else
    match mix_nodes with
    | [] => ⟨MonitorEnd.empty_nodes_panic, 1, 0⟩
    | _ :: _ =>
      let s := sweep mix_node_sends
      if s.1 then
        ⟨MonitorEnd.completed, 1, s.2⟩
      else
        ⟨MonitorEnd.sweep_send_panic, 1, s.2⟩

/-- A concrete 32-byte public key (witness input). -/
def keyA : List Nat := List.replicate 32 1

/-- A concrete 32-byte public key (witness input). -/
def keyB : List Nat := List.replicate 32 2

/-- A concrete 32-byte provider public key (witness input). -/
def keyD : List Nat := List.replicate 32 3

/-- A concrete layer-one mix node (witness input). -/
def nodeA : SphinxNode := ⟨keyA, [9, 9]⟩

/-- A concrete provider node (witness input). -/
def nodeD : SphinxNode := ⟨keyD, [8, 8]⟩

/-- A concrete two-hop path ending at the provider (witness input). -/
def pathW : List SphinxNode := [nodeA, nodeD]

/-- A checker whose provider cache holds `keyD` as connected and whose
first-hop cache is empty (witness input). -/
def checkerW : PathChecker := ⟨[(keyD, true)], [], [], List.replicate 32 0⟩

/-- A checker caching the provider and the first hop as unreachable
(witness input). -/
def checkerBoth : PathChecker :=
  ⟨[(keyD, false)], [(keyA, false)], [], List.replicate 32 0⟩

/-- The outcome of `check_path checkerW pathW true` (witness input). -/
def outW : CheckOutcome :=
  ⟨true, ⟨[(keyD, true)], [(keyA, true)], [], List.replicate 32 0⟩, 1, 1, 0⟩

theorem alookup_ainsert_self {α β : Type} [DecidableEq α]
    (m : List (α × β)) (k : α) (v : β) :
    alookup (ainsert m k v) k = some v := by
  induction m with
  | nil => simp [ainsert, alookup]
  | cons p rest ih =>
    obtain ⟨k0, w⟩ := p
    by_cases h : k0 = k
    · subst h; simp [ainsert, alookup]
    · simp [ainsert, alookup, h, ih]

theorem alookup_ainsert_ne {α β : Type} [DecidableEq α]
    (m : List (α × β)) (k k' : α) (v : β) (h : k ≠ k') :
    alookup (ainsert m k v) k' = alookup m k' := by
  induction m with
  | nil => simp [ainsert, alookup, h]
  | cons p rest ih =>
    obtain ⟨k0, w⟩ := p
    by_cases h0 : k0 = k
    · subst h0; simp [ainsert, alookup, h]
    · simp [ainsert, alookup, h0, ih]

theorem flatten_length_all32 (keys : List (List Nat))
    (h : ∀ k ∈ keys, k.length = 32) :
    keys.flatten.length = 32 * keys.length := by
  induction keys with
  | nil => simp
  | cons k rest ih =>
    have hk : k.length = 32 := h k (by simp)
    have hr := ih (fun x hx => h x (by simp [hx]))
    simp only [List.flatten_cons, List.length_append, List.length_cons, hk, hr]
    ring

theorem chunks32_fuel_flatten (keys : List (List Nat)) :
    ∀ fuel, (∀ k ∈ keys, k.length = 32) → keys.flatten.length ≤ fuel →
      chunks32_fuel fuel keys.flatten = keys := by
  induction keys with
  | nil => intro fuel _ _; cases fuel <;> rfl
  | cons k rest ih =>
    intro fuel h hfuel
    have hk : k.length = 32 := h k (by simp)
    have hr : ∀ x ∈ rest, x.length = 32 := fun x hx => h x (by simp [hx])
    simp only [List.flatten_cons, List.length_append, hk] at hfuel ⊢
    obtain ⟨x, xs, rfl⟩ : ∃ x xs, k = x :: xs := by
      cases k with
      | nil => simp at hk
      | cons a as => exact ⟨a, as, rfl⟩
    cases fuel with
    | zero => omega
    | succ f =>
      show ((x :: xs ++ rest.flatten).take 32) ::
          chunks32_fuel f ((x :: xs ++ rest.flatten).drop 32) = _
      rw [show (x :: xs ++ rest.flatten) = (x :: xs) ++ rest.flatten from rfl,
        List.take_left' hk, List.drop_left' hk]
      rw [ih f hr (by omega)]

theorem chunks32_flatten (keys : List (List Nat))
    (h : ∀ k ∈ keys, k.length = 32) :
    chunks32 keys.flatten = keys :=
  chunks32_fuel_flatten keys keys.flatten.length h (Nat.le_refl _)

theorem mapM_copy_to_key32 (keys : List (List Nat))
    (h : ∀ k ∈ keys, k.length = 32) :
    keys.mapM copy_to_key32 = some keys := by
  induction keys with
  | nil => rfl
  | cons k rest ih =>
    have hk : copy_to_key32 k = some k := by simp [copy_to_key32, h k (by simp)]
    have hr := ih (fun x hx => h x (by simp [hx]))
    rw [List.mapM_cons, hk, hr]
    rfl

/-- C1: for every non-empty path whose node public keys serialize to 32
bytes and every iteration byte, decoding the encoded path key returns
exactly the path's node keys in path order:
`path_key_to_node_keys (unique_path_key P i) = node_keys P`. -/
theorem path_key_roundtrip (P : List SphinxNode) (i : Nat) (hne : P ≠ [])
    (hkeys : ∀ n ∈ P, n.pub_key.length = 32) :
    path_key_to_node_keys (unique_path_key P i) =
      some (P.map (fun n => n.pub_key)) := by
  have hall : ∀ k ∈ P.map (fun n => n.pub_key), k.length = 32 := by
    intro k hk
    obtain ⟨n, hn, rfl⟩ := List.mem_map.mp hk
    exact hkeys n hn
  have hlen := flatten_length_all32 _ hall
  have hcond : (unique_path_key P i).length % 32 = 1 := by
    unfold unique_path_key
    simp only [List.length_cons, hlen]
    omega
  unfold path_key_to_node_keys
  rw [if_pos hcond]
  unfold unique_path_key
  simp only [List.drop_succ_cons, List.drop_zero]
  rw [chunks32_flatten _ hall, mapM_copy_to_key32 _ hall]

/-- Witness for C1 at the concrete two-node path `pathW`. -/
theorem path_key_roundtrip_witness :
    path_key_to_node_keys (unique_path_key pathW 5) = some [keyA, keyD] :=
  path_key_roundtrip pathW 5 (by decide) (by decide)

/-- C5: `unique_path_key` output length is always `32 * len(P) + 1`, and
`path_key_to_node_keys` rejects (panics on, rather than silently
truncating) every input whose length is not congruent to 1 modulo 32. -/
theorem path_key_length_spec (P : List SphinxNode) (i : Nat) (bad : List Nat)
    (hkeys : ∀ n ∈ P, n.pub_key.length = 32) (hbad : bad.length % 32 ≠ 1) :
    (unique_path_key P i).length = 32 * P.length + 1 ∧
      path_key_to_node_keys bad = none := by
  constructor
  · have hall : ∀ k ∈ P.map (fun n => n.pub_key), k.length = 32 := by
      intro k hk
      obtain ⟨n, hn, rfl⟩ := List.mem_map.mp hk
      exact hkeys n hn
    have hlen := flatten_length_all32 _ hall
    simp [unique_path_key, hlen]
  · simp [path_key_to_node_keys, hbad]

/-- Witness for C5 at `pathW` and the ill-formed two-byte input. -/
theorem path_key_length_spec_witness :
    (unique_path_key pathW 5).length = 32 * pathW.length + 1 ∧
      path_key_to_node_keys [0, 0] = none :=
  path_key_length_spec pathW 5 [0, 0] (by decide) (by decide)

/-- C3: with the terminal provider cached unreachable, or (whatever the
provider's cache entry holds) with the first hop cached unreachable,
`check_path` returns `false` with no packet built, no send attempted and
the checker state unchanged. -/
theorem check_path_short_circuits (st : PathChecker) (path : List SphinxNode)
    (send_ok : Bool) (lastNode firstNode : SphinxNode)
    (hlast : path.getLast? = some lastNode)
    (hfirst : path.head? = some firstNode) :
    (alookup st.provider_clients lastNode.pub_key = some false →
      check_path st path send_ok = some ⟨false, st, 0, 0, 0⟩) ∧
    (∀ pv, alookup st.provider_clients lastNode.pub_key = some pv →
      alookup st.layer_one_clients firstNode.pub_key = some false →
      check_path st path send_ok = some ⟨false, st, 0, 0, 0⟩) := by
  constructor
  · intro h
    simp [check_path, hlast, h]
  · intro pv hp hf
    cases pv with
    | false => simp [check_path, hlast, hp]
    | true => simp [check_path, hlast, hp, hfirst, hf]

/-- Witness for C3 at a checker caching both the provider and the first
hop as unreachable. -/
theorem check_path_short_circuits_witness :
    check_path checkerBoth pathW true = some ⟨false, checkerBoth, 0, 0, 0⟩ ∧
    check_path checkerBoth pathW false = some ⟨false, checkerBoth, 0, 0, 0⟩ :=
  ⟨(check_path_short_circuits checkerBoth pathW true nodeD nodeA rfl rfl).1
      (by decide),
   (check_path_short_circuits checkerBoth pathW false nodeD nodeA rfl rfl).2
      false (by decide) (by decide)⟩

/-- C4: with the terminal provider cached connected and a first hop not
yet cached, `check_path` creates exactly one new first-hop cache entry
(cached connected; no other entry added, removed or modified, and the
provider cache and path-status table untouched), builds one packet,
attempts exactly one send, and returns `true` on send success and
`false` (with one logged warning) on send failure. -/
theorem check_path_fresh_first_hop (st : PathChecker) (path : List SphinxNode)
    (send_ok : Bool) (lastNode firstNode : SphinxNode)
    (hlast : path.getLast? = some lastNode)
    (hfirst : path.head? = some firstNode)
    (hprov : alookup st.provider_clients lastNode.pub_key = some true)
    (hfresh : alookup st.layer_one_clients firstNode.pub_key = none) :
    check_path st path send_ok =
      some ⟨send_ok,
        { st with layer_one_clients :=
            ainsert st.layer_one_clients firstNode.pub_key true },
        1, 1, if send_ok then 0 else 1⟩ ∧
    alookup (ainsert st.layer_one_clients firstNode.pub_key true)
      firstNode.pub_key = some true ∧
    (∀ k, k ≠ firstNode.pub_key →
      alookup (ainsert st.layer_one_clients firstNode.pub_key true) k =
        alookup st.layer_one_clients k) := by
  refine ⟨?_, alookup_ainsert_self _ _ _, fun k hk =>
    alookup_ainsert_ne _ _ _ _ (fun e => hk e.symm)⟩
  cases send_ok with
  | false => simp [check_path, hlast, hprov, hfirst, hfresh]
  | true => simp [check_path, hlast, hprov, hfirst, hfresh]

/-- Witness for C4: fresh first hop `keyA`, connected provider `keyD`,
successful send. -/
theorem check_path_fresh_first_hop_witness :
    check_path checkerW pathW true =
      some ⟨true, ⟨[(keyD, true)], [(keyA, true)], [], List.replicate 32 0⟩,
        1, 1, 0⟩ ∧
    alookup (ainsert checkerW.layer_one_clients keyA true) keyA = some true ∧
    (∀ k, k ≠ keyA →
      alookup (ainsert checkerW.layer_one_clients keyA true) k =
        alookup checkerW.layer_one_clients k) :=
  check_path_fresh_first_hop checkerW pathW true nodeD nodeA rfl rfl
    (by decide) rfl

/-- C10: `check_path` requires the terminal provider key to be present
in the provider cache: with the key absent it panics (`none` — the
`unwrap` of the cache lookup), and with any cache entry present (and a
non-empty path) that panic branch is unreachable — the call returns a
value. -/
theorem check_path_provider_registered (st : PathChecker)
    (path : List SphinxNode) (send_ok : Bool) (lastNode : SphinxNode)
    (hlast : path.getLast? = some lastNode) :
    (alookup st.provider_clients lastNode.pub_key = none →
      check_path st path send_ok = none) ∧
    (∀ pv, alookup st.provider_clients lastNode.pub_key = some pv →
      (check_path st path send_ok).isSome = true) := by
  constructor
  · intro h
    simp [check_path, hlast, h]
  · intro pv hp
    cases path with
    | nil => simp at hlast
    | cons a rest =>
      cases pv with
      | false => simp [check_path, hlast, hp]
      | true =>
        cases hc : alookup st.layer_one_clients a.pub_key with
        | none => cases send_ok <;> simp [check_path, hlast, hp, hc]
        | some b => cases b <;> cases send_ok <;>
            simp [check_path, hlast, hp, hc]

/-- Witness for C10: an unregistered provider panics; a registered one
does not. -/
theorem check_path_provider_registered_witness :
    check_path ⟨[], [], [], []⟩ pathW true = none ∧
    (check_path checkerW pathW true).isSome = true :=
  ⟨(check_path_provider_registered ⟨[], [], [], []⟩ pathW true nodeD rfl).1
      rfl,
   (check_path_provider_registered checkerW pathW true nodeD rfl).2 true
      (by decide)⟩

/-- C7 counterexample: a probe is dispatched (`check_path` attempts one
send and succeeds) yet the resulting checker's path-status table is
empty — no `Pending` entry keyed by the path's key was created. -/
theorem check_path_no_pending_counterexample :
    (check_path checkerW pathW true).map
      (fun o => (o.send_attempts, o.checker.paths_status)) = some (1, []) := by
  decide

/-- C7 amended: `check_path` never creates or modifies any path-status
entry — the `paths_status` table of the checker it returns is exactly
the table it started with; probes are dispatched without recording
`Pending`. -/
theorem check_path_paths_status_unchanged (st : PathChecker)
    (path : List SphinxNode) (send_ok : Bool) (out : CheckOutcome)
    (h : check_path st path send_ok = some out) :
    out.checker.paths_status = st.paths_status := by
  simp only [check_path] at h
  repeat' split at h
  all_goals (try simp_all)
  all_goals rw [← h]

/-- Witness for the amended C7 at the concrete dispatched probe. -/
theorem check_path_paths_status_unchanged_witness :
    outW.checker.paths_status = checkerW.paths_status :=
  check_path_paths_status_unchanged checkerW pathW true outW (by decide)

theorem register_providers_untouched (ps : List (List Nat × Bool))
    (st : RegOutcome) (k : List Nat) (h : k ∉ ps.map Prod.fst) :
    alookup (register_providers ps st).provider_clients k =
      alookup st.provider_clients k := by
  induction ps generalizing st with
  | nil => rfl
  | cons q rest ih =>
    obtain ⟨key, ok⟩ := q
    have hk : key ≠ k := by
      intro e
      subst e
      exact h (by simp)
    have hr : k ∉ rest.map Prod.fst := by
      intro hx
      exact h (by simp [hx])
    simp only [register_providers]
    rw [ih _ hr]
    exact alookup_ainsert_ne _ _ _ _ hk

theorem register_providers_lookup (ps : List (List Nat × Bool)) :
    ∀ st : RegOutcome, (ps.map Prod.fst).Nodup →
      ∀ p ∈ ps, alookup (register_providers ps st).provider_clients p.1 =
        some p.2 := by
  induction ps with
  | nil =>
    intro st _ p hp
    cases hp
  | cons q rest ih =>
    intro st hnd p hp
    obtain ⟨key, ok⟩ := q
    simp only [List.map_cons, List.nodup_cons] at hnd
    rcases List.mem_cons.mp hp with rfl | hmem
    · simp only [register_providers]
      rw [register_providers_untouched _ _ _ hnd.1]
      exact alookup_ainsert_self _ _ _
    · simp only [register_providers]
      exact ih _ hnd.2 p hmem

theorem register_providers_warnings (ps : List (List Nat × Bool)) :
    ∀ st : RegOutcome, (register_providers ps st).warnings =
      st.warnings + (ps.filter (fun p => !p.2)).length := by
  induction ps with
  | nil => intro st; simp [register_providers]
  | cons q rest ih =>
    intro st
    obtain ⟨key, ok⟩ := q
    simp only [register_providers]
    rw [ih]
    cases ok <;> simp [List.filter] <;> omega

theorem register_providers_dup_mono (ps : List (List Nat × Bool)) :
    ∀ st : RegOutcome, st.dup_errors ≤ (register_providers ps st).dup_errors := by
  induction ps with
  | nil => intro st; exact Nat.le_refl _
  | cons q rest ih =>
    intro st
    obtain ⟨key, ok⟩ := q
    simp only [register_providers]
    refine Nat.le_trans ?_ (ih _)
    dsimp only
    exact Nat.le_add_right _ _

theorem register_providers_dup_zero (ps : List (List Nat × Bool)) :
    ∀ st : RegOutcome, (ps.map Prod.fst).Nodup →
      (∀ p ∈ ps, alookup st.provider_clients p.1 = none) →
      (register_providers ps st).dup_errors = st.dup_errors := by
  induction ps with
  | nil => intro st _ _; rfl
  | cons q rest ih =>
    intro st hnd hfresh
    obtain ⟨key, ok⟩ := q
    simp only [List.map_cons, List.nodup_cons] at hnd
    have hkey : alookup st.provider_clients key = none :=
      hfresh (key, ok) (by simp)
    have hfresh' : ∀ p ∈ rest,
        alookup (ainsert st.provider_clients key ok) p.1 = none := by
      intro p hp
      have hne : key ≠ p.1 := by
        intro e
        apply hnd.1
        rw [e]
        exact List.mem_map.mpr ⟨p, hp, rfl⟩
      rw [alookup_ainsert_ne _ _ _ _ hne]
      exact hfresh p (List.mem_cons_of_mem _ hp)
    simp only [register_providers]
    rw [ih _ hnd.2 hfresh']
    simp [hkey]

theorem register_providers_dup_hit (ps : List (List Nat × Bool)) :
    ∀ st : RegOutcome,
      (∃ p ∈ ps, (alookup st.provider_clients p.1).isSome = true) →
      st.dup_errors + 1 ≤ (register_providers ps st).dup_errors := by
  induction ps with
  | nil =>
    intro st h
    obtain ⟨p, hp, _⟩ := h
    cases hp
  | cons q rest ih =>
    intro st h
    obtain ⟨key, ok⟩ := q
    obtain ⟨p, hp, hsome⟩ := h
    rcases List.mem_cons.mp hp with rfl | hmem
    · simp only [register_providers]
      refine Nat.le_trans ?_ (register_providers_dup_mono rest _)
      simp [hsome]
    · have hsome' :
          (alookup (ainsert st.provider_clients key ok) p.1).isSome = true := by
        by_cases hkp : key = p.1
        · rw [← hkp, alookup_ainsert_self]
          rfl
        · rw [alookup_ainsert_ne _ _ _ _ hkp]
          exact hsome
      simp only [register_providers]
      refine Nat.le_trans ?_ (ih _ ⟨p, hmem, hsome'⟩)
      exact Nat.add_le_add_right (Nat.le_add_right _ _) 1

theorem register_providers_dup_reported (ps : List (List Nat × Bool)) :
    ∀ st : RegOutcome, ¬ (ps.map Prod.fst).Nodup →
      st.dup_errors + 1 ≤ (register_providers ps st).dup_errors := by
  induction ps with
  | nil =>
    intro st h
    exact absurd List.nodup_nil h
  | cons q rest ih =>
    intro st h
    obtain ⟨key, ok⟩ := q
    simp only [List.map_cons, List.nodup_cons] at h
    by_cases hmem : key ∈ rest.map Prod.fst
    · obtain ⟨p, hp, hfst⟩ := List.mem_map.mp hmem
      simp only [register_providers]
      refine Nat.le_trans ?_ (register_providers_dup_hit rest _ ⟨p, hp, ?_⟩)
      · dsimp only
        exact Nat.add_le_add_right (Nat.le_add_right _ _) 1
      · rw [hfst, alookup_ainsert_self]
        rfl
    · have hrest : ¬ (rest.map Prod.fst).Nodup := by
        intro hnd
        exact h ⟨hmem, hnd⟩
      simp only [register_providers]
      refine Nat.le_trans ?_ (ih _ hrest)
      dsimp only
      exact Nat.add_le_add_right (Nat.le_add_right _ _) 1

/-- C6: registration processes every provider independently — with
pairwise-distinct provider keys, each success is cached connected and
each failure cached unreachable (a failure never prevents the rest from
being processed), no duplicate error is reported, and one warning is
logged per failure; a list that re-registers an already-cached key has
the duplication reported as an error (at least one "already existed!"
error). -/
theorem pathChecker_new_spec (ps dups : List (List Nat × Bool))
    (hnd : (ps.map Prod.fst).Nodup) (hdup : ¬ (dups.map Prod.fst).Nodup) :
    (∀ p ∈ ps, alookup (pathChecker_new ps).provider_clients p.1 = some p.2) ∧
    (pathChecker_new ps).dup_errors = 0 ∧
    (pathChecker_new ps).warnings = (ps.filter (fun p => !p.2)).length ∧
    1 ≤ (pathChecker_new dups).dup_errors := by
  refine ⟨register_providers_lookup ps ⟨[], 0, 0⟩ hnd, ?_, ?_, ?_⟩
  · exact register_providers_dup_zero ps ⟨[], 0, 0⟩ hnd (fun p _ => rfl)
  · have h := register_providers_warnings ps ⟨[], 0, 0⟩
    simpa using h
  · have h := register_providers_dup_reported dups ⟨[], 0, 0⟩ hdup
    simpa using h

/-- Witness for C6: providers `keyA` (registration succeeds) and `keyB`
(registration fails), plus a list re-registering `keyA`. -/
theorem pathChecker_new_spec_witness :
    (∀ p ∈ [(keyA, true), (keyB, false)],
      alookup (pathChecker_new [(keyA, true), (keyB, false)]).provider_clients
        p.1 = some p.2) ∧
    (pathChecker_new [(keyA, true), (keyB, false)]).dup_errors = 0 ∧
    (pathChecker_new [(keyA, true), (keyB, false)]).warnings =
      ([(keyA, true), (keyB, false)].filter (fun p => !p.2)).length ∧
    1 ≤ (pathChecker_new [(keyA, false), (keyA, true)]).dup_errors :=
  pathChecker_new_spec [(keyA, true), (keyB, false)]
    [(keyA, false), (keyA, true)] (by decide) (by decide)

/-- C9 counterexample: with authentication and the sanity-check send
succeeding but the topology fetch failing, the monitor aborts — yet a
probe (the sanity-check self-probe) has already been issued, so "no
probe is ever issued" fails for this fatal startup condition. -/
theorem monitor_fetch_probe_counterexample :
    (monitor_run true true false [keyA] [true]).outcome =
      MonitorEnd.fetch_panic ∧
    (monitor_run true true false [keyA] [true]).sanity_sends +
      (monitor_run true true false [keyA] [true]).sweep_sends ≠ 0 := by
  decide

/-- C9 amended: each of the three fatal startup conditions aborts the
run; authentication failure issues no probe at all, while topology-fetch
failure and an empty relay list abort before any sweep probe is issued —
though in those two cases the single sanity-check self-probe has already
been sent. -/
theorem monitor_fatal_startup (sanity_ok fetch_ok : Bool)
    (nodes : List (List Nat)) (sends : List Bool) :
    monitor_run false sanity_ok fetch_ok nodes sends =
      ⟨MonitorEnd.auth_panic, 0, 0⟩ ∧
    monitor_run true true false nodes sends =
      ⟨MonitorEnd.fetch_panic, 1, 0⟩ ∧
    monitor_run true true true [] sends =
      ⟨MonitorEnd.empty_nodes_panic, 1, 0⟩ :=
  ⟨rfl, rfl, rfl⟩

/-- C8: a failure of any of the listener's stages (decryption,
fragment recovery, reassembly insertion) makes `on_message` panic; a
panicking message terminates the message loop at once, with zero further
messages processed (no malformed packet is ever skipped); and exhaustion
of the inbound channel (closure) drives the listener into its final
`panic!`, terminating the whole process. -/
theorem listener_failures_fatal
    (decrypt : List Nat → Option (List Nat))
    (recover_frag : List Nat → Option Fragment)
    (insert_frag : ReassemblyState → Fragment →
      Option (ReassemblyState × Option (List Nat)))
    (st stf : ReassemblyState) (m : List Nat) (rest : List (List Nat))
    (batches : List (List (List Nat))) :
    (decrypt m = none →
      on_message decrypt recover_frag insert_frag st m = none) ∧
    (∀ enc, decrypt m = some enc → recover_frag enc = none →
      on_message decrypt recover_frag insert_frag st m = none) ∧
    (∀ enc f, decrypt m = some enc → recover_frag enc = some f →
      insert_frag st f = none →
      on_message decrypt recover_frag insert_frag st m = none) ∧
    (on_message decrypt recover_frag insert_frag st m = none →
      run_messages decrypt recover_frag insert_frag st (m :: rest) =
        (none, 0)) ∧
    ((run_messages decrypt recover_frag insert_frag st batches.flatten).1 =
        some stf →
      run_listener decrypt recover_frag insert_frag st batches =
        (ListenerEnd.channel_panic,
          (run_messages decrypt recover_frag insert_frag st
            batches.flatten).2)) := by
  refine ⟨?_, ?_, ?_, ?_, ?_⟩
  · intro h
    simp [on_message, h]
  · intro enc h1 h2
    simp [on_message, h1, h2]
  · intro enc f h1 h2 h3
    simp [on_message, h1, h2, h3]
  · intro h
    simp [run_messages, h]
  · intro h
    unfold run_listener
    split
    · rename_i n heq
      rw [heq] at h
      simp at h
    · rename_i s n heq
      rw [heq]

/-- Witness for C8: failing oracles kill the loop immediately; an
exhausted (closed) channel ends in the channel panic. -/
theorem listener_failures_fatal_witness :
    on_message (fun _ => none) (fun _ => none) (fun _ _ => none) [] [3] =
      none ∧
    run_messages (fun _ => none) (fun _ => none) (fun _ _ => none) []
      [[3], [4]] = (none, 0) ∧
    run_listener (fun _ => none) (fun _ => none) (fun _ _ => none) [] [] =
      (ListenerEnd.channel_panic, 0) :=
  ⟨(listener_failures_fatal (fun _ => none) (fun _ => none) (fun _ _ => none)
      [] [] [3] [[4]] []).1 rfl,
   (listener_failures_fatal (fun _ => none) (fun _ => none) (fun _ _ => none)
      [] [] [3] [[4]] []).2.2.2.1
     ((listener_failures_fatal (fun _ => none) (fun _ => none)
        (fun _ _ => none) [] [] [3] [[4]] []).1 rfl),
   (listener_failures_fatal (fun _ => none) (fun _ => none) (fun _ _ => none)
      [] [] [3] [[4]] []).2.2.2.2 rfl⟩

/-- C2 counterexample: the listener's per-message handler fails (panics,
`expect("no reconstructed message received from test packet")`) on a
non-final fragment — here the first fragment of a 3-fragment message —
so "no failure occurs on the non-final fragments" is false of the
handler. -/
theorem on_message_nonfinal_counterexample :
    on_message (fun x => some x) (fun _ => some ⟨0, 0, 3, [5]⟩)
      (fun s g => some (insert_new_fragment s g)) [] [7] = none := rfl

theorem feed_fragments_nil (st : ReassemblyState) :
    feed_fragments st [] = (st, []) := rfl

theorem feed_fragments_cons (st : ReassemblyState) (f : Fragment)
    (rest : List Fragment) :
    feed_fragments st (f :: rest) =
      ((feed_fragments (insert_new_fragment st f).1 rest).1,
       (insert_new_fragment st f).2.toList ++
         (feed_fragments (insert_new_fragment st f).1 rest).2) := rfl

theorem feed_step (st st' : ReassemblyState) (f : Fragment)
    (rest : List Fragment) (out : Option (List Nat))
    (h : insert_new_fragment st f = (st', out)) :
    feed_fragments st (f :: rest) =
      ((feed_fragments st' rest).1,
       out.toList ++ (feed_fragments st' rest).2) := by
  rw [feed_fragments_cons, h]

set_option maxHeartbeats 1000000 in
/-- C2 amended: inserting a fragment into the reassembly state yields
either no output or one completed message, and feeding the fragments of
a 3-fragment message (set 0, payloads `p1,p2,p3`) in any
order-preserving interleaving with those of an unrelated 2-fragment
message (set 1, payloads `q1,q2`) completes exactly one message per set,
each equal to its original plaintext, with no cross-contamination; the
listener's per-message handler, however, succeeds exactly on the
fragments that complete a message and panics on all others. -/
theorem reassembly_interleaving (p1 p2 p3 q1 q2 : List Nat)
    (l : List Fragment)
    (hl : l ∈ interleavings
      [⟨0, 0, 3, p1⟩, ⟨0, 1, 3, p2⟩, ⟨0, 2, 3, p3⟩]
      [⟨1, 0, 2, q1⟩, ⟨1, 1, 2, q2⟩]) :
    List.Perm (feed_fragments [] l).2 [p1 ++ p2 ++ p3, q1 ++ q2] ∧
    (∀ st f, on_message (fun x => some x) (fun _ => some f)
        (fun s g => some (insert_new_fragment s g)) st [] =
      Option.map (fun r => ((insert_new_fragment st f).1, r))
        (insert_new_fragment st f).2) := by
  constructor
  · have hl' : l ∈
      [[⟨0, 0, 3, p1⟩, ⟨0, 1, 3, p2⟩, ⟨0, 2, 3, p3⟩, ⟨1, 0, 2, q1⟩, ⟨1, 1, 2, q2⟩],
       [⟨0, 0, 3, p1⟩, ⟨0, 1, 3, p2⟩, ⟨1, 0, 2, q1⟩, ⟨0, 2, 3, p3⟩, ⟨1, 1, 2, q2⟩],
       [⟨0, 0, 3, p1⟩, ⟨0, 1, 3, p2⟩, ⟨1, 0, 2, q1⟩, ⟨1, 1, 2, q2⟩, ⟨0, 2, 3, p3⟩],
       [⟨0, 0, 3, p1⟩, ⟨1, 0, 2, q1⟩, ⟨0, 1, 3, p2⟩, ⟨0, 2, 3, p3⟩, ⟨1, 1, 2, q2⟩],
       [⟨0, 0, 3, p1⟩, ⟨1, 0, 2, q1⟩, ⟨0, 1, 3, p2⟩, ⟨1, 1, 2, q2⟩, ⟨0, 2, 3, p3⟩],
       [⟨0, 0, 3, p1⟩, ⟨1, 0, 2, q1⟩, ⟨1, 1, 2, q2⟩, ⟨0, 1, 3, p2⟩, ⟨0, 2, 3, p3⟩],
       [⟨1, 0, 2, q1⟩, ⟨0, 0, 3, p1⟩, ⟨0, 1, 3, p2⟩, ⟨0, 2, 3, p3⟩, ⟨1, 1, 2, q2⟩],
       [⟨1, 0, 2, q1⟩, ⟨0, 0, 3, p1⟩, ⟨0, 1, 3, p2⟩, ⟨1, 1, 2, q2⟩, ⟨0, 2, 3, p3⟩],
       [⟨1, 0, 2, q1⟩, ⟨0, 0, 3, p1⟩, ⟨1, 1, 2, q2⟩, ⟨0, 1, 3, p2⟩, ⟨0, 2, 3, p3⟩],
       [⟨1, 0, 2, q1⟩, ⟨1, 1, 2, q2⟩, ⟨0, 0, 3, p1⟩, ⟨0, 1, 3, p2⟩, ⟨0, 2, 3, p3⟩]] := hl
    simp only [List.mem_cons, List.not_mem_nil, or_false] at hl'
    rcases hl' with rfl | rfl | rfl | rfl | rfl | rfl | rfl | rfl | rfl | rfl
    · have t1 : insert_new_fragment []
          ⟨0, 0, 3, p1⟩ =
          ([(0, [(0, p1)])], none) := rfl
      have t2 : insert_new_fragment [(0, [(0, p1)])]
          ⟨0, 1, 3, p2⟩ =
          ([(0, [(0, p1), (1, p2)])], none) := rfl
      have t3 : insert_new_fragment [(0, [(0, p1), (1, p2)])]
          ⟨0, 2, 3, p3⟩ =
          ([], some ([] ++ p1 ++ p2 ++ p3)) := rfl
      have t4 : insert_new_fragment []
          ⟨1, 0, 2, q1⟩ =
          ([(1, [(0, q1)])], none) := rfl
      have t5 : insert_new_fragment [(1, [(0, q1)])]
          ⟨1, 1, 2, q2⟩ =
          ([], some ([] ++ q1 ++ q2)) := rfl
      rw [feed_step _ _ _ _ _ t1, feed_step _ _ _ _ _ t2,
        feed_step _ _ _ _ _ t3, feed_step _ _ _ _ _ t4,
        feed_step _ _ _ _ _ t5, feed_fragments_nil]
      simp [List.append_assoc]
    · have t1 : insert_new_fragment []
          ⟨0, 0, 3, p1⟩ =
          ([(0, [(0, p1)])], none) := rfl
      have t2 : insert_new_fragment [(0, [(0, p1)])]
          ⟨0, 1, 3, p2⟩ =
          ([(0, [(0, p1), (1, p2)])], none) := rfl
      have t3 : insert_new_fragment [(0, [(0, p1), (1, p2)])]
          ⟨1, 0, 2, q1⟩ =
          ([(0, [(0, p1), (1, p2)]), (1, [(0, q1)])], none) := rfl
      have t4 : insert_new_fragment [(0, [(0, p1), (1, p2)]), (1, [(0, q1)])]
          ⟨0, 2, 3, p3⟩ =
          ([(1, [(0, q1)])], some ([] ++ p1 ++ p2 ++ p3)) := rfl
      have t5 : insert_new_fragment [(1, [(0, q1)])]
          ⟨1, 1, 2, q2⟩ =
          ([], some ([] ++ q1 ++ q2)) := rfl
      rw [feed_step _ _ _ _ _ t1, feed_step _ _ _ _ _ t2,
        feed_step _ _ _ _ _ t3, feed_step _ _ _ _ _ t4,
        feed_step _ _ _ _ _ t5, feed_fragments_nil]
      simp [List.append_assoc]
    · have t1 : insert_new_fragment []
          ⟨0, 0, 3, p1⟩ =
          ([(0, [(0, p1)])], none) := rfl
      have t2 : insert_new_fragment [(0, [(0, p1)])]
          ⟨0, 1, 3, p2⟩ =
          ([(0, [(0, p1), (1, p2)])], none) := rfl
      have t3 : insert_new_fragment [(0, [(0, p1), (1, p2)])]
          ⟨1, 0, 2, q1⟩ =
          ([(0, [(0, p1), (1, p2)]), (1, [(0, q1)])], none) := rfl
      have t4 : insert_new_fragment [(0, [(0, p1), (1, p2)]), (1, [(0, q1)])]
          ⟨1, 1, 2, q2⟩ =
          ([(0, [(0, p1), (1, p2)])], some ([] ++ q1 ++ q2)) := rfl
      have t5 : insert_new_fragment [(0, [(0, p1), (1, p2)])]
          ⟨0, 2, 3, p3⟩ =
          ([], some ([] ++ p1 ++ p2 ++ p3)) := rfl
      rw [feed_step _ _ _ _ _ t1, feed_step _ _ _ _ _ t2,
        feed_step _ _ _ _ _ t3, feed_step _ _ _ _ _ t4,
        feed_step _ _ _ _ _ t5, feed_fragments_nil]
      simp [List.append_assoc]
      try exact List.Perm.swap _ _ _
    · have t1 : insert_new_fragment []
          ⟨0, 0, 3, p1⟩ =
          ([(0, [(0, p1)])], none) := rfl
      have t2 : insert_new_fragment [(0, [(0, p1)])]
          ⟨1, 0, 2, q1⟩ =
          ([(0, [(0, p1)]), (1, [(0, q1)])], none) := rfl
      have t3 : insert_new_fragment [(0, [(0, p1)]), (1, [(0, q1)])]
          ⟨0, 1, 3, p2⟩ =
          ([(0, [(0, p1), (1, p2)]), (1, [(0, q1)])], none) := rfl
      have t4 : insert_new_fragment [(0, [(0, p1), (1, p2)]), (1, [(0, q1)])]
          ⟨0, 2, 3, p3⟩ =
          ([(1, [(0, q1)])], some ([] ++ p1 ++ p2 ++ p3)) := rfl
      have t5 : insert_new_fragment [(1, [(0, q1)])]
          ⟨1, 1, 2, q2⟩ =
          ([], some ([] ++ q1 ++ q2)) := rfl
      rw [feed_step _ _ _ _ _ t1, feed_step _ _ _ _ _ t2,
        feed_step _ _ _ _ _ t3, feed_step _ _ _ _ _ t4,
        feed_step _ _ _ _ _ t5, feed_fragments_nil]
      simp [List.append_assoc]
    · have t1 : insert_new_fragment []
          ⟨0, 0, 3, p1⟩ =
          ([(0, [(0, p1)])], none) := rfl
      have t2 : insert_new_fragment [(0, [(0, p1)])]
          ⟨1, 0, 2, q1⟩ =
          ([(0, [(0, p1)]), (1, [(0, q1)])], none) := rfl
      have t3 : insert_new_fragment [(0, [(0, p1)]), (1, [(0, q1)])]
          ⟨0, 1, 3, p2⟩ =
          ([(0, [(0, p1), (1, p2)]), (1, [(0, q1)])], none) := rfl
      have t4 : insert_new_fragment [(0, [(0, p1), (1, p2)]), (1, [(0, q1)])]
          ⟨1, 1, 2, q2⟩ =
          ([(0, [(0, p1), (1, p2)])], some ([] ++ q1 ++ q2)) := rfl
      have t5 : insert_new_fragment [(0, [(0, p1), (1, p2)])]
          ⟨0, 2, 3, p3⟩ =
          ([], some ([] ++ p1 ++ p2 ++ p3)) := rfl
      rw [feed_step _ _ _ _ _ t1, feed_step _ _ _ _ _ t2,
        feed_step _ _ _ _ _ t3, feed_step _ _ _ _ _ t4,
        feed_step _ _ _ _ _ t5, feed_fragments_nil]
      simp [List.append_assoc]
      try exact List.Perm.swap _ _ _
    · have t1 : insert_new_fragment []
          ⟨0, 0, 3, p1⟩ =
          ([(0, [(0, p1)])], none) := rfl
      have t2 : insert_new_fragment [(0, [(0, p1)])]
          ⟨1, 0, 2, q1⟩ =
          ([(0, [(0, p1)]), (1, [(0, q1)])], none) := rfl
      have t3 : insert_new_fragment [(0, [(0, p1)]), (1, [(0, q1)])]
          ⟨1, 1, 2, q2⟩ =
          ([(0, [(0, p1)])], some ([] ++ q1 ++ q2)) := rfl
      have t4 : insert_new_fragment [(0, [(0, p1)])]
          ⟨0, 1, 3, p2⟩ =
          ([(0, [(0, p1), (1, p2)])], none) := rfl
      have t5 : insert_new_fragment [(0, [(0, p1), (1, p2)])]
          ⟨0, 2, 3, p3⟩ =
          ([], some ([] ++ p1 ++ p2 ++ p3)) := rfl
      rw [feed_step _ _ _ _ _ t1, feed_step _ _ _ _ _ t2,
        feed_step _ _ _ _ _ t3, feed_step _ _ _ _ _ t4,
        feed_step _ _ _ _ _ t5, feed_fragments_nil]
      simp [List.append_assoc]
      try exact List.Perm.swap _ _ _
    · have t1 : insert_new_fragment []
          ⟨1, 0, 2, q1⟩ =
          ([(1, [(0, q1)])], none) := rfl
      have t2 : insert_new_fragment [(1, [(0, q1)])]
          ⟨0, 0, 3, p1⟩ =
          ([(1, [(0, q1)]), (0, [(0, p1)])], none) := rfl
      have t3 : insert_new_fragment [(1, [(0, q1)]), (0, [(0, p1)])]
          ⟨0, 1, 3, p2⟩ =
          ([(1, [(0, q1)]), (0, [(0, p1), (1, p2)])], none) := rfl
      have t4 : insert_new_fragment [(1, [(0, q1)]), (0, [(0, p1), (1, p2)])]
          ⟨0, 2, 3, p3⟩ =
          ([(1, [(0, q1)])], some ([] ++ p1 ++ p2 ++ p3)) := rfl
      have t5 : insert_new_fragment [(1, [(0, q1)])]
          ⟨1, 1, 2, q2⟩ =
          ([], some ([] ++ q1 ++ q2)) := rfl
      rw [feed_step _ _ _ _ _ t1, feed_step _ _ _ _ _ t2,
        feed_step _ _ _ _ _ t3, feed_step _ _ _ _ _ t4,
        feed_step _ _ _ _ _ t5, feed_fragments_nil]
      simp [List.append_assoc]
    · have t1 : insert_new_fragment []
          ⟨1, 0, 2, q1⟩ =
          ([(1, [(0, q1)])], none) := rfl
      have t2 : insert_new_fragment [(1, [(0, q1)])]
          ⟨0, 0, 3, p1⟩ =
          ([(1, [(0, q1)]), (0, [(0, p1)])], none) := rfl
      have t3 : insert_new_fragment [(1, [(0, q1)]), (0, [(0, p1)])]
          ⟨0, 1, 3, p2⟩ =
          ([(1, [(0, q1)]), (0, [(0, p1), (1, p2)])], none) := rfl
      have t4 : insert_new_fragment [(1, [(0, q1)]), (0, [(0, p1), (1, p2)])]
          ⟨1, 1, 2, q2⟩ =
          ([(0, [(0, p1), (1, p2)])], some ([] ++ q1 ++ q2)) := rfl
      have t5 : insert_new_fragment [(0, [(0, p1), (1, p2)])]
          ⟨0, 2, 3, p3⟩ =
          ([], some ([] ++ p1 ++ p2 ++ p3)) := rfl
      rw [feed_step _ _ _ _ _ t1, feed_step _ _ _ _ _ t2,
        feed_step _ _ _ _ _ t3, feed_step _ _ _ _ _ t4,
        feed_step _ _ _ _ _ t5, feed_fragments_nil]
      simp [List.append_assoc]
      try exact List.Perm.swap _ _ _
    · have t1 : insert_new_fragment []
          ⟨1, 0, 2, q1⟩ =
          ([(1, [(0, q1)])], none) := rfl
      have t2 : insert_new_fragment [(1, [(0, q1)])]
          ⟨0, 0, 3, p1⟩ =
          ([(1, [(0, q1)]), (0, [(0, p1)])], none) := rfl
      have t3 : insert_new_fragment [(1, [(0, q1)]), (0, [(0, p1)])]
          ⟨1, 1, 2, q2⟩ =
          ([(0, [(0, p1)])], some ([] ++ q1 ++ q2)) := rfl
      have t4 : insert_new_fragment [(0, [(0, p1)])]
          ⟨0, 1, 3, p2⟩ =
          ([(0, [(0, p1), (1, p2)])], none) := rfl
      have t5 : insert_new_fragment [(0, [(0, p1), (1, p2)])]
          ⟨0, 2, 3, p3⟩ =
          ([], some ([] ++ p1 ++ p2 ++ p3)) := rfl
      rw [feed_step _ _ _ _ _ t1, feed_step _ _ _ _ _ t2,
        feed_step _ _ _ _ _ t3, feed_step _ _ _ _ _ t4,
        feed_step _ _ _ _ _ t5, feed_fragments_nil]
      simp [List.append_assoc]
      try exact List.Perm.swap _ _ _
    · have t1 : insert_new_fragment []
          ⟨1, 0, 2, q1⟩ =
          ([(1, [(0, q1)])], none) := rfl
      have t2 : insert_new_fragment [(1, [(0, q1)])]
          ⟨1, 1, 2, q2⟩ =
          ([], some ([] ++ q1 ++ q2)) := rfl
      have t3 : insert_new_fragment []
          ⟨0, 0, 3, p1⟩ =
          ([(0, [(0, p1)])], none) := rfl
      have t4 : insert_new_fragment [(0, [(0, p1)])]
          ⟨0, 1, 3, p2⟩ =
          ([(0, [(0, p1), (1, p2)])], none) := rfl
      have t5 : insert_new_fragment [(0, [(0, p1), (1, p2)])]
          ⟨0, 2, 3, p3⟩ =
          ([], some ([] ++ p1 ++ p2 ++ p3)) := rfl
      rw [feed_step _ _ _ _ _ t1, feed_step _ _ _ _ _ t2,
        feed_step _ _ _ _ _ t3, feed_step _ _ _ _ _ t4,
        feed_step _ _ _ _ _ t5, feed_fragments_nil]
      simp [List.append_assoc]
      try exact List.Perm.swap _ _ _
  · intro st f
    cases h2 : insert_new_fragment st f with
    | mk s r =>
      cases r with
      | none => simp [on_message, h2]
      | some msg => simp [on_message, h2]

/-- Witness for the amended C2 at concrete payloads and a concrete
interleaving. -/
theorem reassembly_interleaving_witness :
    List.Perm (feed_fragments []
      [⟨0, 0, 3, [1]⟩, ⟨0, 1, 3, [2]⟩, ⟨1, 0, 2, [4]⟩, ⟨0, 2, 3, [3]⟩,
       ⟨1, 1, 2, [5]⟩]).2 [[1] ++ [2] ++ [3], [4] ++ [5]] ∧
    (∀ st f, on_message (fun x => some x) (fun _ => some f)
        (fun s g => some (insert_new_fragment s g)) st [] =
      Option.map (fun r => ((insert_new_fragment st f).1, r))
        (insert_new_fragment st f).2) :=
  reassembly_interleaving [1] [2] [3] [4] [5] _ (by decide)
